import Mathlib

/-!
Verification of the interactive-ripples renderer.

The development shallowly embeds the two GLSL fragment shaders of the
repository (a basic 10-slot variant and an enhanced 16-slot variant,
both in the unnamed shader source file) together with the TypeScript
ripple registries that feed them (the basic `InteractiveRipples` class
and the enhanced `EnhancedInteractiveRipples` class in `main.ts`).

GLSL float arithmetic is embedded as real arithmetic; the registries,
which never perform arithmetic on the stored coordinates, are embedded
over the rationals so that concrete runs are decidable.  `vec2` is
`ℝ × ℝ`, `vec3` is `Vec3 := ℝ × ℝ × ℝ`, and the GLSL built-ins
(`fract`, `floor`, `distance`, `mix`, `step`, `clamp`, `smoothstep`)
are defined componentwise below.  `pow(x, 2.0)` is embedded as
squaring, which is the defined meaning for non-negative bases and the
evident intent of the source.
-/

namespace Ripples

noncomputable section

/-! ## GLSL built-ins -/

/-- GLSL `fract`. -/
def glFract (x : ℝ) : ℝ := Int.fract x

/-- GLSL `step(edge, x)`: 0 when `x < edge`, else 1. -/
def glStep (edge x : ℝ) : ℝ := if x < edge then 0 else 1

/-- GLSL `clamp(x, lo, hi)`. -/
def glClamp (x lo hi : ℝ) : ℝ := min (max x lo) hi

/-- GLSL `mix(x, y, a)` on scalars. -/
def glMix (x y a : ℝ) : ℝ := x * (1 - a) + y * a

/-- GLSL `smoothstep(e0, e1, x)`. -/
def glSmoothstep (e0 e1 x : ℝ) : ℝ :=
  let t := glClamp ((x - e0) / (e1 - e0)) 0 1
  t * t * (3 - 2 * t)

/-- GLSL `distance` on `vec2`. -/
def glDistance (u v : ℝ × ℝ) : ℝ :=
  Real.sqrt ((u.1 - v.1) ^ 2 + (u.2 - v.2) ^ 2)

/-- GLSL `dot` on `vec2`. -/
def glDot (u v : ℝ × ℝ) : ℝ := u.1 * v.1 + u.2 * v.2

/-- Componentwise `floor` on `vec2`. -/
def vfloor (v : ℝ × ℝ) : ℝ × ℝ := ((⌊v.1⌋ : ℝ), (⌊v.2⌋ : ℝ))

/-- Scalar times `vec2`. -/
def vscale (s : ℝ) (v : ℝ × ℝ) : ℝ × ℝ := (s * v.1, s * v.2)

/-- `vec2` subtraction. -/
def vsub (u v : ℝ × ℝ) : ℝ × ℝ := (u.1 - v.1, u.2 - v.2)

/-- `vec2` minus a scalar (GLSL broadcasts the scalar). -/
def vsubs (v : ℝ × ℝ) (s : ℝ) : ℝ × ℝ := (v.1 - s, v.2 - s)

/-- `vec2` divided by a scalar. -/
def vdivs (v : ℝ × ℝ) (s : ℝ) : ℝ × ℝ := (v.1 / s, v.2 / s)

/-- Componentwise `vec2` division. -/
def vdivv (u v : ℝ × ℝ) : ℝ × ℝ := (u.1 / v.1, u.2 / v.2)

/-- Componentwise `vec2` multiplication. -/
def vmulv (u v : ℝ × ℝ) : ℝ × ℝ := (u.1 * v.1, u.2 * v.2)

/-- GLSL `vec3` as a triple of reals. -/
def Vec3 : Type := ℝ × ℝ × ℝ

/-- Build a `Vec3`. -/
def v3 (x y z : ℝ) : Vec3 := (x, y, z)

/-- First component of a `Vec3`. -/
def v3x (v : Vec3) : ℝ := v.1

/-- `vec3` addition. -/
def v3add (u v : Vec3) : Vec3 := (u.1 + v.1, u.2.1 + v.2.1, u.2.2 + v.2.2)

/-- Scalar times `vec3`. -/
def v3scale (s : ℝ) (v : Vec3) : Vec3 := (s * v.1, s * v.2.1, s * v.2.2)

/-- GLSL `mix` on `vec3` with scalar interpolant. -/
def v3mix (u v : Vec3) (a : ℝ) : Vec3 :=
  (glMix u.1 v.1 a, glMix u.2.1 v.2.1 a, glMix u.2.2 v.2.2 a)

/-! ## Bayer-matrix dither helpers

Shared verbatim between the two shader variants:
`Bayer2(a) { a = floor(a); return fract(a.x / 2.0 + a.y * a.y * 0.75); }`,
`Bayer4(a) = Bayer2(0.5*a)*0.25 + Bayer2(a)`,
`Bayer8(a) = Bayer4(0.5*a)*0.25 + Bayer2(a)`, and in the enhanced
variant additionally `Bayer16(a) = Bayer8(0.5*a)*0.25 + Bayer2(a)`. -/

/-- The 2 by 2 base Bayer pattern. -/
def Bayer2 (a : ℝ × ℝ) : ℝ :=
  glFract ((vfloor a).1 / 2 + (vfloor a).2 * (vfloor a).2 * 0.75)

/-- Recursive Bayer level 4. -/
def Bayer4 (a : ℝ × ℝ) : ℝ := Bayer2 (vscale 0.5 a) * 0.25 + Bayer2 a

/-- Recursive Bayer level 8. -/
def Bayer8 (a : ℝ × ℝ) : ℝ := Bayer4 (vscale 0.5 a) * 0.25 + Bayer2 a

/-- Recursive Bayer level 16 (enhanced variant only). -/
def Bayer16 (a : ℝ × ℝ) : ℝ := Bayer8 (vscale 0.5 a) * 0.25 + Bayer2 a

/-- Blue-noise hash of the enhanced variant:
`fract(sin(dot(p, vec2(127.1,311.7)))*43758.5453123 +
       sin(dot(p, vec2(269.5,183.3)))*43758.5453123)` with
`p = coord * 0.01`. -/
def blueNoise (coord : ℝ × ℝ) : ℝ :=
  let p := vscale 0.01 coord
  glFract (Real.sin (glDot p (127.1, 311.7)) * 43758.5453123 +
    Real.sin (glDot p (269.5, 183.3)) * 43758.5453123)

/-! ## The shared ripple-to-normalized-coordinate map

Both shaders compute, for a stored ripple position `pos`,
`cuv = (((pos - uResolution*0.5 - cellPixelSize*0.5) / uResolution)) *
vec2(aspectRatio, 1.0)`. -/

/-- Normalized, aspect-corrected coordinate of a stored ripple position. -/
def rippleCuv (uResolution : ℝ × ℝ) (cellPixelSize aspect : ℝ)
    (pos : ℝ × ℝ) : ℝ × ℝ :=
  vmulv (vdivv (vsubs (vsub pos (vscale 0.5 uResolution)) (cellPixelSize * 0.5))
    uResolution) (aspect, 1)

/-! ## Basic shader variant (`MAX_CLICKS = 10`, fixed wave constants) -/

namespace BasicShader

/-- Wave speed constant of the basic shader. -/
def speed : ℝ := 0.30

/-- Ring thickness constant of the basic shader. -/
def thickness : ℝ := 0.10

/-- Time-decay constant of the basic shader (`1.0` in the source). -/
def dampT : ℝ := 1

/-- Distance-decay constant of the basic shader (`1.0` in the source). -/
def dampR : ℝ := 1

/-- Pixel size constant of the basic shader (`4.0` in the source). -/
def PIXEL_SIZE : ℝ := 4

/-- The Gaussian ring term `exp(-pow((r - waveR)/thickness, 2.0))`. -/
def ringTerm (r waveR : ℝ) : ℝ := Real.exp (-((r - waveR) / thickness) ^ 2)

/-- The attenuation `exp(-dampT*t) * exp(-dampR*r)`. -/
def attenTerm (t r : ℝ) : ℝ :=
  Real.exp (-(dampT * t)) * Real.exp (-(dampR * r))

/-- A single ripple's contribution as a function of elapsed time `t`
and radial distance `r`: `ring * atten` with `waveR = speed * t`. -/
def waveTR (t r : ℝ) : ℝ := ringTerm r (speed * t) * attenTerm t r

/-- A single ripple's contribution at sample point `uv` from a ripple
at normalized position `cuv`, with `t = max(uTime - clickTime, 0.0)`
and `r = distance(uv, cuv)`. -/
def waveAt (uv cuv : ℝ × ℝ) (uTime clickTime : ℝ) : ℝ :=
  waveTR (max (uTime - clickTime) 0) (glDistance uv cuv)

/-- One iteration of the basic shader's click loop: empty slots
(`pos.x < 0 && pos.y < 0`) are skipped by `continue`, the rest feed
`feed = max(feed, ring * atten)`. -/
def feedStep (uResolution : ℝ × ℝ) (uTime cellPixelSize aspect : ℝ)
    (uv : ℝ × ℝ) (feed : ℝ) (s : (ℝ × ℝ) × ℝ) : ℝ :=
  if s.1.1 < 0 ∧ s.1.2 < 0 then feed
  else max feed
    (waveAt uv (rippleCuv uResolution cellPixelSize aspect s.1) uTime s.2)

/-- The accumulation loop of the basic shader over a list of
(position, click-time) slots, starting from `feed = 0`. -/
def feedFold (uResolution : ℝ × ℝ) (uTime cellPixelSize aspect : ℝ)
    (uv : ℝ × ℝ) (slots : List ((ℝ × ℝ) × ℝ)) : ℝ :=
  slots.foldl (feedStep uResolution uTime cellPixelSize aspect uv) 0

/-- The basic shader's `main`, as delivered the 10 uniform slots; the
result is the scalar `bw` (the emitted color is `vec4(vec3(bw), 1.0)`,
so `bw = 0` is the black background and `bw = 1` the white foreground). -/
def shade (uResolution : ℝ × ℝ) (uTime : ℝ) (uClickPos : Fin 10 → ℝ × ℝ)
    (uClickTimes : Fin 10 → ℝ) (glFragCoord : ℝ × ℝ) : ℝ :=
  let pixelSize := PIXEL_SIZE
  let fragCoord := vsub glFragCoord (vscale 0.5 uResolution)
  let aspect := uResolution.1 / uResolution.2
  let cellPixelSize := 8 * pixelSize
  let cellId := vfloor (vdivs fragCoord cellPixelSize)
  let cellCoord := vscale cellPixelSize cellId
  let uv := vmulv (vdivv cellCoord uResolution) (aspect, 1)
  let feed := feedFold uResolution uTime cellPixelSize aspect uv
    ((List.finRange 10).map fun i => (uClickPos i, uClickTimes i))
  let bayerValue := Bayer8 (vdivs fragCoord pixelSize) - 0.5
  glStep 0.5 (feed + bayerValue)

end BasicShader

/-! ## Enhanced shader variant (`MAX_CLICKS = 16`, uniform parameters) -/

namespace EnhShader

/-- The style-configuration uniforms of the enhanced shader. -/
structure Uniforms where
  uResolution : ℝ × ℝ
  uTime : ℝ
  uColor1 : Vec3
  uColor2 : Vec3
  uBackgroundColor : Vec3
  uPixelSize : ℝ
  uWaveSpeed : ℝ
  uWaveThickness : ℝ
  uTimeDecay : ℝ
  uDistanceDecay : ℝ
  uBloomStrength : ℝ
  uAnimatedBackground : Bool

/-- Cell size constant `CELL_PIXEL_SIZE = 8.0` of the enhanced shader. -/
def CELL_PIXEL_SIZE : ℝ := 8.0

/-- `calculateWave` as a function of the already-computed distance:
Gaussian ring modulated by `(1 + 0.3*sin(wavePhase*2)) * 0.7` with
`wavePhase = 6.28318 * (dist - waveRadius) / thickness`. -/
def calculateWaveCore (dist time waveSpeed thickness : ℝ) : ℝ :=
  let waveRadius := waveSpeed * time
  let wavePhase := 6.28318 * (dist - waveRadius) / thickness
  let wave := Real.exp (-((dist - waveRadius) / thickness) ^ 2)
  wave * (1 + 0.3 * Real.sin (wavePhase * 2)) * 0.7

/-- The shader's `calculateWave(pos, center, time, waveSpeed, thickness)`. -/
def calculateWave (pos center : ℝ × ℝ) (time waveSpeed thickness : ℝ) : ℝ :=
  calculateWaveCore (glDistance pos center) time waveSpeed thickness

/-- The time-attenuation factor `exp(-uTimeDecay * timeSinceClick)`. -/
def timeAttenuation (uTimeDecay timeSinceClick : ℝ) : ℝ :=
  Real.exp (-uTimeDecay * timeSinceClick)

/-- The distance-attenuation factor `exp(-uDistanceDecay * dist)`. -/
def distanceAttenuation (uDistanceDecay dist : ℝ) : ℝ :=
  Real.exp (-uDistanceDecay * dist)

/-- One slot's final wave value as a function of elapsed time and
distance: `wave * timeAttenuation * distanceAttenuation`. -/
def finalWaveTR (uWaveSpeed uWaveThickness uTimeDecay uDistanceDecay
    t dist : ℝ) : ℝ :=
  calculateWaveCore dist t uWaveSpeed uWaveThickness *
    timeAttenuation uTimeDecay t * distanceAttenuation uDistanceDecay dist

/-- One slot's final wave value at sample point `uv` for stored
position `pos` and click time `clickTime`. -/
def slotWave (u : Uniforms) (cellPixelSize aspect : ℝ) (uv : ℝ × ℝ)
    (pos : ℝ × ℝ) (clickTime : ℝ) : ℝ :=
  let cuv := rippleCuv u.uResolution cellPixelSize aspect pos
  let timeSinceClick := max (u.uTime - clickTime) 0
  let dist := glDistance uv cuv
  finalWaveTR u.uWaveSpeed u.uWaveThickness u.uTimeDecay u.uDistanceDecay
    timeSinceClick dist

/-- One iteration of the enhanced shader's ripple loop on the
accumulator `(totalWave, maxIntensity)`: empty slots
(`pos.x < 0 && pos.y < 0`) are skipped, the rest update both
components by `max` with the slot's final wave. -/
def waveStep (u : Uniforms) (cellPixelSize aspect : ℝ) (uv : ℝ × ℝ)
    (acc : ℝ × ℝ) (s : (ℝ × ℝ) × ℝ) : ℝ × ℝ :=
  if s.1.1 < 0 ∧ s.1.2 < 0 then acc
  else
    let finalWave := slotWave u cellPixelSize aspect uv s.1 s.2
    (max acc.1 finalWave, max acc.2 finalWave)

/-- The ripple-processing loop of the enhanced shader, returning the
pair `(totalWave, maxIntensity)`. -/
def waveFold (u : Uniforms) (cellPixelSize aspect : ℝ) (uv : ℝ × ℝ)
    (slots : List ((ℝ × ℝ) × ℝ)) : ℝ × ℝ :=
  slots.foldl (waveStep u cellPixelSize aspect uv) (0, 0)

/-- `getAnimatedBackground`: the configured background color, or an
animated gradient of it when `uAnimatedBackground` is set. -/
def getAnimatedBackground (u : Uniforms) (uv : ℝ × ℝ) : Vec3 :=
  if u.uAnimatedBackground = false then u.uBackgroundColor
  else
    let animUV := (uv.1 + Real.sin (u.uTime * 0.3) * 0.1,
      uv.2 + Real.cos (u.uTime * 0.2) * 0.1)
    let gradient := glSmoothstep 0 1
      (animUV.2 + Real.sin (animUV.1 * 3.14159) * 0.2)
    v3mix u.uBackgroundColor (v3scale 1.5 u.uBackgroundColor) (gradient * 0.3)

/-- The dither-value selection of the enhanced shader (before the
`- 0.5` recentering): Bayer16 above intensity 0.8, Bayer8 above 0.6,
Bayer4 above 0.3, otherwise the blue-noise hash. -/
def ditherSelect (maxIntensity : ℝ) (coord : ℝ × ℝ) : ℝ :=
  if maxIntensity > 0.8 then Bayer16 coord
  else if maxIntensity > 0.6 then Bayer8 coord
  else if maxIntensity > 0.3 then Bayer4 coord
  else blueNoise coord

/-- The enhanced shader's `main` on a list of slots, producing the
final `vec3` color. -/
def shade (u : Uniforms) (uClickPos : Fin 16 → ℝ × ℝ)
    (uClickTimes : Fin 16 → ℝ) (glFragCoord : ℝ × ℝ) : Vec3 :=
  let pixelSize := u.uPixelSize
  let fragCoord := vsub glFragCoord (vscale 0.5 u.uResolution)
  let aspect := u.uResolution.1 / u.uResolution.2
  let cellPixelSize := CELL_PIXEL_SIZE * pixelSize
  let cellId := vfloor (vdivs fragCoord cellPixelSize)
  let cellCoord := vscale cellPixelSize cellId
  let uv := vmulv (vdivv cellCoord u.uResolution) (aspect, 1)
  let waves := waveFold u cellPixelSize aspect uv
    ((List.finRange 16).map fun i => (uClickPos i, uClickTimes i))
  let totalWave := waves.1
  let maxIntensity := waves.2
  let ditherValue := ditherSelect maxIntensity (vdivs fragCoord pixelSize) - 0.5
  let thresholdValue := totalWave + ditherValue
  let rippleStrength := glSmoothstep 0.3 0.7 thresholdValue
  let backgroundColor := getAnimatedBackground u uv
  let rippleColor := v3mix u.uColor1 u.uColor2 rippleStrength
  let finalColor := v3mix backgroundColor rippleColor rippleStrength
  if rippleStrength > 0.5 then
    v3add finalColor
      (v3scale (u.uBloomStrength * (rippleStrength - 0.5) * 2) rippleColor)
  else finalColor

end EnhShader

/-- A concrete style configuration used to evaluate the enhanced
shader on a cleared registry: 2 by 2 resolution, both foreground
colors white, black background, unit pixel size and wave parameters,
no bloom, static background. -/
def c2Uniforms : EnhShader.Uniforms :=
  { uResolution := (2, 2)
    uTime := 0
    uColor1 := (1, 1, 1)
    uColor2 := (1, 1, 1)
    uBackgroundColor := (0, 0, 0)
    uPixelSize := 1
    uWaveSpeed := 1
    uWaveThickness := 1
    uTimeDecay := 1
    uDistanceDecay := 1
    uBloomStrength := 0
    uAnimatedBackground := false }

/-- A concrete style configuration under which a ripple sampled at
radial distance `log (7/4)` at elapsed time `log (7/4)` contributes
exactly `0.4`: unit wave speed and thickness, unit time decay, zero
distance decay. -/
def c5Uniforms : EnhShader.Uniforms :=
  { uResolution := (1, 1)
    uTime := Real.log (7 / 4)
    uColor1 := (0, 0, 0)
    uColor2 := (0, 0, 0)
    uBackgroundColor := (0, 0, 0)
    uPixelSize := 1
    uWaveSpeed := 1
    uWaveThickness := 1
    uTimeDecay := 1
    uDistanceDecay := 0
    uBloomStrength := 0
    uAnimatedBackground := false }

/-- The slot datum of the `c5` two-ripple scenario: a ripple stored at
pixel position `(1/2 + log (7/4), 1/2)` with click time 0. -/
def c5Slot : (ℝ × ℝ) × ℝ := ((1 / 2 + Real.log (7 / 4), 1 / 2), 0)

end

/-! ## Ripple registries (TypeScript side, embedded over `ℚ`)

The registries only store coordinates and times and do modular
arithmetic on the cursor, so the rational embedding is exact and fully
decidable.  The bridge to the real-valued shaders is the coordinatewise
cast `ratPos`. -/

/-- Cast a rational stored position to the shader's real plane. -/
def ratPos (p : ℚ × ℚ) : ℝ × ℝ := ((p.1 : ℝ), (p.2 : ℝ))

/-- The empty-slot sentinel test used by both shaders
(`pos.x < 0.0 && pos.y < 0.0`), on rational registry data. -/
def sentinelQ (p : ℚ × ℚ) : Prop := p.1 < 0 ∧ p.2 < 0

instance (p : ℚ × ℚ) : Decidable (sentinelQ p) := by
  unfold sentinelQ; infer_instance

namespace BasicApp

/-- State of the basic `InteractiveRipples` class: the click uniforms,
the running clock value, and the write cursor `clickIndex`. -/
structure State where
  uClickPos : Fin 10 → ℚ × ℚ
  uClickTimes : Fin 10 → ℚ
  uTime : ℚ
  clickIndex : Fin 10

/-- Construction-time state: all positions `(-1, -1)`, all times 0,
cursor 0. -/
def initial : State :=
  { uClickPos := fun _ => (-1, -1)
    uClickTimes := fun _ => 0
    uTime := 0
    clickIndex := 0 }

/-- `addRipple(x, y)`: write the position and the current time at
`clickIndex`, then advance `clickIndex = (clickIndex + 1) % MAX_CLICKS`
(the `Fin 10` addition is exactly that modular increment). -/
def addRipple (st : State) (x y : ℚ) : State :=
  { st with
    uClickPos := Function.update st.uClickPos st.clickIndex (x, y)
    uClickTimes := Function.update st.uClickTimes st.clickIndex st.uTime
    clickIndex := st.clickIndex + 1 }

/-- `clearRipples()`: every position to `(-1, -1)`, every time to 0.
The cursor is not touched by the source. -/
def clearRipples (st : State) : State :=
  { st with
    uClickPos := fun _ => (-1, -1)
    uClickTimes := fun _ => 0 }

/-- Advance the clock (the `animate` loop's `uTime` update). -/
def setTime (st : State) (t : ℚ) : State := { st with uTime := t }

end BasicApp

namespace EnhApp

/-- The `RippleParams` record of the enhanced variant.  Colors are the
RGB triples that the hex strings denote after `THREE.Color` parsing. -/
structure Params where
  color1 : ℚ × ℚ × ℚ
  color2 : ℚ × ℚ × ℚ
  backgroundColor : ℚ × ℚ × ℚ
  pixelSize : ℚ
  waveSpeed : ℚ
  waveThickness : ℚ
  timeDecay : ℚ
  distanceDecay : ℚ
  bloomStrength : ℚ
  animatedBackground : Bool
  maxRipples : ℤ

/-- The literal defaults of `EnhancedInteractiveRipples.params`. -/
def defaultParams : Params :=
  { color1 := (0, 2/3, 1)
    color2 := (1, 1, 1)
    backgroundColor := (0, 1/15, 2/15)
    pixelSize := 4
    waveSpeed := 7/20
    waveThickness := 3/25
    timeDecay := 4/5
    distanceDecay := 6/5
    bloomStrength := 3/10
    animatedBackground := true
    maxRipples := 16 }

/-- State of the enhanced class: click uniforms, clock, cursor,
`activeRipples` counter, and the live parameter record. -/
structure State where
  uClickPos : Fin 16 → ℚ × ℚ
  uClickTimes : Fin 16 → ℚ
  uTime : ℚ
  clickIndex : Fin 16
  activeRipples : ℤ
  params : Params

/-- Construction-time state. -/
def initial : State :=
  { uClickPos := fun _ => (-1, -1)
    uClickTimes := fun _ => 0
    uTime := 0
    clickIndex := 0
    activeRipples := 0
    params := defaultParams }

/-- `addRipple(x, y)` of the enhanced class: when
`activeRipples >= maxRipples`, first clear the slot about to be reused
and decrement the counter; then write the record, advance the cursor
modulo 16, and increment the counter. -/
def addRipple (st : State) (x y : ℚ) : State :=
  let st1 :=
    if st.activeRipples ≥ st.params.maxRipples then
      { st with
        uClickPos := Function.update st.uClickPos st.clickIndex (-1, -1)
        activeRipples := st.activeRipples - 1 }
    else st
  { st1 with
    uClickPos := Function.update st1.uClickPos st1.clickIndex (x, y)
    uClickTimes := Function.update st1.uClickTimes st1.clickIndex st1.uTime
    clickIndex := st1.clickIndex + 1
    activeRipples := st1.activeRipples + 1 }

/-- `clearAllRipples()`: every position to `(-1, -1)`, every time to 0,
`activeRipples = 0`, `clickIndex = 0`. -/
def clearAllRipples (st : State) : State :=
  { st with
    uClickPos := fun _ => (-1, -1)
    uClickTimes := fun _ => 0
    activeRipples := 0
    clickIndex := 0 }

/-- Advance the clock. -/
def setTime (st : State) (t : ℚ) : State := { st with uTime := t }

/-- The externally triggerable registry operations (pointer insertions,
the clear command, clock advance). -/
inductive Op where
  | add (x y : ℚ)
  | clearAll
  | tick (t : ℚ)
deriving DecidableEq

/-- Apply one operation. -/
def step (st : State) : Op → State
  | .add x y => addRipple st x y
  | .clearAll => clearAllRipples st
  | .tick t => setTime st t

/-- Run a sequence of operations from the construction-time state. -/
def run (ops : List Op) : State := ops.foldl step initial

/-- An operation is admissible when any inserted position is not an
empty-sentinel position (the spec's caller-side precondition). -/
def opOK : Op → Prop
  | .add x y => ¬(x < 0 ∧ y < 0)
  | .clearAll => True
  | .tick _ => True

instance : DecidablePred opOK := fun op => by
  cases op <;> simp only [opOK] <;> infer_instance

/-- Number of slots whose position is not the empty sentinel. -/
def activeSlotCount (st : State) : ℕ :=
  (Finset.univ.filter fun j : Fin 16 => ¬ sentinelQ (st.uClickPos j)).card

/-- The reachability invariant of the enhanced registry when
`maxRipples` equals the capacity: `activeRipples` stores some
`a ∈ [0, 16]`, and the `16 - a` slots starting at the write cursor
(cyclically) are exactly the sentinel slots. -/
def Inv (st : State) : Prop :=
  ∃ a : ℕ, a ≤ 16 ∧ st.activeRipples = (a : ℤ) ∧
    ∀ k : Fin 16,
      (sentinelQ (st.uClickPos (st.clickIndex + k)) ↔ (k : ℕ) < 16 - a)

/-- The construction-time state with `maxRipples` lowered to 1 (a value
the specification's side condition `maxRipples ≤ capacity` permits). -/
def lowCapStart : State :=
  { initial with params := { defaultParams with maxRipples := 1 } }

end EnhApp

/-! # Theorems -/

/-! ## Bounds on the Bayer pattern -/

theorem Bayer2_eq (a : ℝ × ℝ) :
    Bayer2 a = (((2 * ⌊a.1⌋ + 3 * ⌊a.2⌋ ^ 2) % 4 : ℤ) : ℝ) / 4 := by
  unfold Bayer2 glFract vfloor
  set m : ℤ := ⌊a.1⌋
  set n : ℤ := ⌊a.2⌋
  set k : ℤ := 2 * m + 3 * n ^ 2 with hk
  have harg : (m : ℝ) / 2 + (n : ℝ) * (n : ℝ) * 0.75 = (k : ℝ) / 4 := by
    rw [hk]; push_cast; ring
  rw [harg]
  have hsplit : (k : ℝ) / 4 = ((k / 4 : ℤ) : ℝ) + ((k % 4 : ℤ) : ℝ) / 4 := by
    have hz : (4 : ℤ) * (k / 4) + k % 4 = k := Int.ediv_add_emod k 4
    have hzr : ((4 * (k / 4) + k % 4 : ℤ) : ℝ) = (k : ℝ) := by rw [hz]
    push_cast at hzr
    linarith
  have h0 : (0 : ℤ) ≤ k % 4 := Int.emod_nonneg k (by norm_num)
  have h4 : k % 4 < 4 := Int.emod_lt_of_pos k (by norm_num)
  rw [hsplit, Int.fract_int_add, Int.fract_eq_self.mpr ?_]
  constructor
  · positivity
  · have : ((k % 4 : ℤ) : ℝ) < 4 := by exact_mod_cast h4
    linarith

theorem Bayer2_bounds (a : ℝ × ℝ) : 0 ≤ Bayer2 a ∧ Bayer2 a ≤ 3 / 4 := by
  rw [Bayer2_eq]
  have h0 : (0 : ℤ) ≤ (2 * ⌊a.1⌋ + 3 * ⌊a.2⌋ ^ 2) % 4 :=
    Int.emod_nonneg _ (by norm_num)
  have h4 : (2 * ⌊a.1⌋ + 3 * ⌊a.2⌋ ^ 2) % 4 < 4 :=
    Int.emod_lt_of_pos _ (by norm_num)
  have h3 : (2 * ⌊a.1⌋ + 3 * ⌊a.2⌋ ^ 2) % 4 ≤ 3 := by omega
  constructor
  · have : (0 : ℝ) ≤ (((2 * ⌊a.1⌋ + 3 * ⌊a.2⌋ ^ 2) % 4 : ℤ) : ℝ) := by
      exact_mod_cast h0
    linarith
  · have : (((2 * ⌊a.1⌋ + 3 * ⌊a.2⌋ ^ 2) % 4 : ℤ) : ℝ) ≤ 3 := by
      exact_mod_cast h3
    linarith

theorem Bayer4_bounds (a : ℝ × ℝ) : 0 ≤ Bayer4 a ∧ Bayer4 a ≤ 15 / 16 := by
  unfold Bayer4
  have h1 := Bayer2_bounds (vscale 0.5 a)
  have h2 := Bayer2_bounds a
  constructor <;> nlinarith [h1.1, h1.2, h2.1, h2.2]

theorem Bayer8_bounds (a : ℝ × ℝ) : 0 ≤ Bayer8 a ∧ Bayer8 a ≤ 63 / 64 := by
  unfold Bayer8
  have h1 := Bayer4_bounds (vscale 0.5 a)
  have h2 := Bayer2_bounds a
  constructor <;> nlinarith [h1.1, h1.2, h2.1, h2.2]

theorem Bayer16_bounds (a : ℝ × ℝ) : 0 ≤ Bayer16 a ∧ Bayer16 a ≤ 255 / 256 := by
  unfold Bayer16
  have h1 := Bayer8_bounds (vscale 0.5 a)
  have h2 := Bayer2_bounds a
  constructor <;> nlinarith [h1.1, h1.2, h2.1, h2.2]

/-- Claim C7: every Bayer threshold produced by the recursive
construction (`Bayer2`, `Bayer4`, `Bayer8`, and the enhanced variant's
`Bayer16`) lies in `[0, 1)` for every input coordinate, hence after
recentering by subtracting `0.5` the dither value lies in
`[-0.5, 0.5)`. -/
theorem c7_bayer_threshold_range (a : ℝ × ℝ) :
    (0 ≤ Bayer2 a ∧ Bayer2 a < 1) ∧
    (0 ≤ Bayer4 a ∧ Bayer4 a < 1) ∧
    (0 ≤ Bayer8 a ∧ Bayer8 a < 1) ∧
    (0 ≤ Bayer16 a ∧ Bayer16 a < 1) ∧
    (-(1 / 2) ≤ Bayer8 a - 0.5 ∧ Bayer8 a - 0.5 < 1 / 2) ∧
    (-(1 / 2) ≤ Bayer16 a - 0.5 ∧ Bayer16 a - 0.5 < 1 / 2) := by
  have h2 := Bayer2_bounds a
  have h4 := Bayer4_bounds a
  have h8 := Bayer8_bounds a
  have h16 := Bayer16_bounds a
  refine ⟨⟨h2.1, by linarith [h2.2]⟩, ⟨h4.1, by linarith [h4.2]⟩,
    ⟨h8.1, by linarith [h8.2]⟩, ⟨h16.1, by linarith [h16.2]⟩,
    ⟨by norm_num [h8.1], by norm_num; linarith [h8.2]⟩,
    ⟨by norm_num [h16.1], by norm_num; linarith [h16.2]⟩⟩

/-! ## Claim C6: value at the spawn instant at the center -/

/-- Claim C6 is false as stated for the enhanced variant: at
`timeSinceSpawn = 0`, `radialDistance = 0` (with all wave parameters 1)
the slot's contribution is exactly `0.7`, which is not within `1/4`
of 1 — the interference modulation `(1 + 0.3*sin 0) * 0.7` scales the
unit Gaussian ring down to `0.7`. -/
theorem c6_counterexample :
    EnhShader.finalWaveTR 1 1 1 1 0 0 = 7 / 10 ∧
    ¬ |EnhShader.finalWaveTR 1 1 1 1 0 0 - 1| ≤ 1 / 4 := by
  have h : EnhShader.finalWaveTR 1 1 1 1 0 0 = 7 / 10 := by
    unfold EnhShader.finalWaveTR EnhShader.calculateWaveCore
      EnhShader.timeAttenuation EnhShader.distanceAttenuation
    norm_num
  refine ⟨h, ?_⟩
  rw [h]
  rw [abs_of_nonpos (by norm_num)]
  norm_num

/-- Claim C6 (amended): at the spawn instant at the exact center,
the basic variant's Gaussian ring and both attenuation factors all
equal `exp 0 = 1` and the contribution is exactly 1; in the enhanced
variant the Gaussian term and both attenuation factors are likewise 1
for every parameter choice, but the interference modulation makes the
contribution exactly `0.7` rather than approximately 1. -/
theorem c6_amended_spawn_center_value
    (waveSpeed waveThickness uTimeDecay uDistanceDecay : ℝ) :
    BasicShader.ringTerm 0 (BasicShader.speed * 0) = 1 ∧
    BasicShader.attenTerm 0 0 = 1 ∧
    BasicShader.waveTR 0 0 = 1 ∧
    Real.exp (-((0 - waveSpeed * 0) / waveThickness) ^ 2) = 1 ∧
    EnhShader.timeAttenuation uTimeDecay 0 = 1 ∧
    EnhShader.distanceAttenuation uDistanceDecay 0 = 1 ∧
    EnhShader.finalWaveTR waveSpeed waveThickness uTimeDecay uDistanceDecay 0 0
      = 7 / 10 := by
  refine ⟨?_, ?_, ?_, ?_, ?_, ?_, ?_⟩
  · unfold BasicShader.ringTerm BasicShader.speed BasicShader.thickness
    norm_num
  · unfold BasicShader.attenTerm BasicShader.dampT BasicShader.dampR
    norm_num
  · unfold BasicShader.waveTR BasicShader.ringTerm BasicShader.attenTerm
      BasicShader.speed BasicShader.thickness BasicShader.dampT
      BasicShader.dampR
    norm_num
  · norm_num
  · unfold EnhShader.timeAttenuation; norm_num
  · unfold EnhShader.distanceAttenuation; norm_num
  · unfold EnhShader.finalWaveTR EnhShader.calculateWaveCore
      EnhShader.timeAttenuation EnhShader.distanceAttenuation
    norm_num

/-! ## Claim C8: monotone time decay and vanishing intensity -/

/-- The exponential of a positive multiple of `t` tends to 0 at
`-∞`-rate as `t → ∞`. -/
theorem exp_neg_mul_tendsto_zero {c : ℝ} (hc : 0 < c) :
    Filter.Tendsto (fun t : ℝ => Real.exp (-(c * t))) Filter.atTop (nhds 0) := by
  have hmul : Filter.Tendsto (fun t : ℝ => c * t) Filter.atTop Filter.atTop :=
    Filter.Tendsto.const_mul_atTop hc Filter.tendsto_id
  exact Real.tendsto_exp_neg_atTop_nhds_zero.comp hmul

/-- Claim C8: with strictly positive decay rates, and for a fixed
ripple and sample point at which the wave front has passed the sample
(`radialDistance ≤ waveSpeed * t₁`), the time-attenuation factor
`exp(-timeDecay * t)` strictly decreases as `t` grows — in the
enhanced variant's `timeAttenuation` and inside the basic variant's
`atten` alike — and the slot's total contribution tends to 0 as
`t → ∞` in both variants. -/
theorem c8_decay_monotone_and_vanishing
    (uTimeDecay uDistanceDecay waveSpeed waveThickness r t₁ t₂ : ℝ)
    (hdT : 0 < uTimeDecay) (hdR : 0 < uDistanceDecay)
    (hpass : r ≤ waveSpeed * t₁) (hlt : t₁ < t₂) :
    EnhShader.timeAttenuation uTimeDecay t₂ <
      EnhShader.timeAttenuation uTimeDecay t₁ ∧
    BasicShader.attenTerm t₂ r < BasicShader.attenTerm t₁ r ∧
    Filter.Tendsto (fun t => BasicShader.waveTR t r) Filter.atTop (nhds 0) ∧
    Filter.Tendsto
      (fun t => EnhShader.finalWaveTR waveSpeed waveThickness uTimeDecay
        uDistanceDecay t r)
      Filter.atTop (nhds 0) := by
  refine ⟨?_, ?_, ?_, ?_⟩
  · unfold EnhShader.timeAttenuation
    exact Real.exp_lt_exp.mpr (by nlinarith)
  · unfold BasicShader.attenTerm BasicShader.dampT BasicShader.dampR
    have hstrict : Real.exp (-(1 * t₂)) < Real.exp (-(1 * t₁)) :=
      Real.exp_lt_exp.mpr (by norm_num; linarith)
    exact mul_lt_mul_of_pos_right hstrict (Real.exp_pos _)
  · have hg : Filter.Tendsto
        (fun t : ℝ => Real.exp (-(1 * t)) * Real.exp (-(1 * r)))
        Filter.atTop (nhds 0) := by
      simpa using
        (exp_neg_mul_tendsto_zero (c := 1) one_pos).mul_const
          (Real.exp (-(1 * r)))
    refine squeeze_zero (fun t => ?_) (fun t => ?_) hg
    · unfold BasicShader.waveTR BasicShader.ringTerm BasicShader.attenTerm
      positivity
    · show BasicShader.waveTR t r ≤ _
      unfold BasicShader.waveTR BasicShader.ringTerm BasicShader.attenTerm
        BasicShader.dampT BasicShader.dampR
      have hring :
          Real.exp (-((r - BasicShader.speed * t) / BasicShader.thickness) ^ 2)
            ≤ 1 :=
        Real.exp_le_one_iff.mpr (neg_nonpos_of_nonneg (sq_nonneg _))
      have hpos : (0 : ℝ) < Real.exp (-(1 * t)) * Real.exp (-(1 * r)) := by
        positivity
      nlinarith [hring, hpos]
  · have hg : Filter.Tendsto
        (fun t : ℝ => 91 / 100 * Real.exp (-uDistanceDecay * r) *
          Real.exp (-uTimeDecay * t))
        Filter.atTop (nhds 0) := by
      simpa [neg_mul] using
        (exp_neg_mul_tendsto_zero hdT).const_mul
          (91 / 100 * Real.exp (-(uDistanceDecay * r)))
    refine squeeze_zero (fun t => ?_) (fun t => ?_) hg
    · simp only [EnhShader.finalWaveTR, EnhShader.calculateWaveCore,
        EnhShader.timeAttenuation, EnhShader.distanceAttenuation]
      have hsin : -1 ≤ Real.sin
          (6.28318 * (r - waveSpeed * t) / waveThickness * 2) :=
        Real.neg_one_le_sin _
      have he : (0 : ℝ) <
          Real.exp (-((r - waveSpeed * t) / waveThickness) ^ 2) :=
        Real.exp_pos _
      have ht : (0 : ℝ) < Real.exp (-uTimeDecay * t) := Real.exp_pos _
      have hd : (0 : ℝ) < Real.exp (-uDistanceDecay * r) := Real.exp_pos _
      nlinarith [mul_pos ht hd, mul_pos he (mul_pos ht hd)]
    · simp only [EnhShader.finalWaveTR, EnhShader.calculateWaveCore,
        EnhShader.timeAttenuation, EnhShader.distanceAttenuation]
      have hsin1 : Real.sin
          (6.28318 * (r - waveSpeed * t) / waveThickness * 2) ≤ 1 :=
        Real.sin_le_one _
      have hsin2 : -1 ≤ Real.sin
          (6.28318 * (r - waveSpeed * t) / waveThickness * 2) :=
        Real.neg_one_le_sin _
      have he1 : Real.exp (-((r - waveSpeed * t) / waveThickness) ^ 2) ≤ 1 :=
        Real.exp_le_one_iff.mpr (neg_nonpos_of_nonneg (sq_nonneg _))
      have he0 : (0 : ℝ) <
          Real.exp (-((r - waveSpeed * t) / waveThickness) ^ 2) :=
        Real.exp_pos _
      have ht : (0 : ℝ) < Real.exp (-uTimeDecay * t) := Real.exp_pos _
      have hd : (0 : ℝ) < Real.exp (-uDistanceDecay * r) := Real.exp_pos _
      have hmod : 1 + 0.3 * Real.sin
          (6.28318 * (r - waveSpeed * t) / waveThickness * 2) ≤ 13 / 10 := by
        linarith
      have hmod0 : 0 ≤ 1 + 0.3 * Real.sin
          (6.28318 * (r - waveSpeed * t) / waveThickness * 2) := by
        linarith
      have hcore : Real.exp (-((r - waveSpeed * t) / waveThickness) ^ 2) *
          (1 + 0.3 * Real.sin
            (6.28318 * (r - waveSpeed * t) / waveThickness * 2)) * 0.7
          ≤ 91 / 100 := by
        have h12 := mul_le_mul he1 hmod hmod0 zero_le_one
        nlinarith [h12]
      have h1 := mul_le_mul_of_nonneg_right hcore ht.le
      have h2 := mul_le_mul_of_nonneg_right h1 hd.le
      linarith [h2]

/-- Witness for `c8_decay_monotone_and_vanishing` at decay rates 1,
wave speed 1, sample distance 0, times 0 and 1. -/
theorem c8_decay_monotone_and_vanishing_witness :
    EnhShader.timeAttenuation 1 1 < EnhShader.timeAttenuation 1 0 ∧
    BasicShader.attenTerm 1 0 < BasicShader.attenTerm 0 0 ∧
    Filter.Tendsto (fun t => BasicShader.waveTR t 0) Filter.atTop (nhds 0) ∧
    Filter.Tendsto (fun t => EnhShader.finalWaveTR 1 1 1 1 t 0)
      Filter.atTop (nhds 0) :=
  c8_decay_monotone_and_vanishing 1 1 1 1 0 0 1 one_pos one_pos
    (by norm_num) (by norm_num)

/-! ## Claim C5: contributions combine by maximum, never by sum -/

theorem feed_foldl_init_le (uR : ℝ × ℝ) (uT cps asp : ℝ) (uv : ℝ × ℝ)
    (slots : List ((ℝ × ℝ) × ℝ)) :
    ∀ acc : ℝ, acc ≤ slots.foldl (BasicShader.feedStep uR uT cps asp uv) acc := by
  induction slots with
  | nil => intro acc; simp
  | cons s rest ih =>
    intro acc
    simp only [List.foldl_cons]
    refine le_trans ?_ (ih (BasicShader.feedStep uR uT cps asp uv acc s))
    unfold BasicShader.feedStep
    split
    · exact le_refl acc
    · exact le_max_left _ _

theorem feed_foldl_mem_le (uR : ℝ × ℝ) (uT cps asp : ℝ) (uv : ℝ × ℝ)
    (slots : List ((ℝ × ℝ) × ℝ)) :
    ∀ acc : ℝ, ∀ s ∈ slots, ¬(s.1.1 < 0 ∧ s.1.2 < 0) →
      BasicShader.waveAt uv (rippleCuv uR cps asp s.1) uT s.2 ≤
        slots.foldl (BasicShader.feedStep uR uT cps asp uv) acc := by
  induction slots with
  | nil => intro acc s hs; exact absurd hs (List.not_mem_nil s)
  | cons s' rest ih =>
    intro acc s hs hns
    simp only [List.foldl_cons]
    rcases List.mem_cons.mp hs with h | h
    · subst h
      refine le_trans ?_ (feed_foldl_init_le uR uT cps asp uv rest _)
      unfold BasicShader.feedStep
      rw [if_neg hns]
      exact le_max_right _ _
    · exact ih _ s h hns

theorem feed_foldl_attained (uR : ℝ × ℝ) (uT cps asp : ℝ) (uv : ℝ × ℝ)
    (slots : List ((ℝ × ℝ) × ℝ)) :
    ∀ acc : ℝ, slots.foldl (BasicShader.feedStep uR uT cps asp uv) acc = acc ∨
      ∃ s ∈ slots, ¬(s.1.1 < 0 ∧ s.1.2 < 0) ∧
        slots.foldl (BasicShader.feedStep uR uT cps asp uv) acc =
          BasicShader.waveAt uv (rippleCuv uR cps asp s.1) uT s.2 := by
  induction slots with
  | nil => intro acc; left; rfl
  | cons s' rest ih =>
    intro acc
    simp only [List.foldl_cons]
    rcases ih (BasicShader.feedStep uR uT cps asp uv acc s') with h | ⟨s, hs, hns, h⟩
    · rw [h]
      unfold BasicShader.feedStep
      split
      · left; rfl
      · rcases max_choice acc
          (BasicShader.waveAt uv (rippleCuv uR cps asp s'.1) uT s'.2) with
          hmx | hmx
        · left; exact hmx
        · right
          refine ⟨s', List.mem_cons_self s' rest, ?_, hmx⟩
          next hcond => exact hcond
    · right; exact ⟨s, List.mem_cons_of_mem s' hs, hns, h⟩

theorem wave_foldl_fst_init_le (u : EnhShader.Uniforms) (cps asp : ℝ)
    (uv : ℝ × ℝ) (slots : List ((ℝ × ℝ) × ℝ)) :
    ∀ acc : ℝ × ℝ,
      acc.1 ≤ (slots.foldl (EnhShader.waveStep u cps asp uv) acc).1 := by
  induction slots with
  | nil => intro acc; simp
  | cons s rest ih =>
    intro acc
    simp only [List.foldl_cons]
    refine le_trans ?_ (ih (EnhShader.waveStep u cps asp uv acc s))
    unfold EnhShader.waveStep
    split
    · exact le_refl acc.1
    · exact le_max_left _ _

theorem wave_foldl_fst_mem_le (u : EnhShader.Uniforms) (cps asp : ℝ)
    (uv : ℝ × ℝ) (slots : List ((ℝ × ℝ) × ℝ)) :
    ∀ acc : ℝ × ℝ, ∀ s ∈ slots, ¬(s.1.1 < 0 ∧ s.1.2 < 0) →
      EnhShader.slotWave u cps asp uv s.1 s.2 ≤
        (slots.foldl (EnhShader.waveStep u cps asp uv) acc).1 := by
  induction slots with
  | nil => intro acc s hs; exact absurd hs (List.not_mem_nil s)
  | cons s' rest ih =>
    intro acc s hs hns
    simp only [List.foldl_cons]
    rcases List.mem_cons.mp hs with h | h
    · subst h
      refine le_trans ?_ (wave_foldl_fst_init_le u cps asp uv rest _)
      unfold EnhShader.waveStep
      rw [if_neg hns]
      exact le_max_right _ _
    · exact ih _ s h hns

theorem wave_foldl_fst_attained (u : EnhShader.Uniforms) (cps asp : ℝ)
    (uv : ℝ × ℝ) (slots : List ((ℝ × ℝ) × ℝ)) :
    ∀ acc : ℝ × ℝ,
      (slots.foldl (EnhShader.waveStep u cps asp uv) acc).1 = acc.1 ∨
      ∃ s ∈ slots, ¬(s.1.1 < 0 ∧ s.1.2 < 0) ∧
        (slots.foldl (EnhShader.waveStep u cps asp uv) acc).1 =
          EnhShader.slotWave u cps asp uv s.1 s.2 := by
  induction slots with
  | nil => intro acc; left; rfl
  | cons s' rest ih =>
    intro acc
    simp only [List.foldl_cons]
    rcases ih (EnhShader.waveStep u cps asp uv acc s') with h | ⟨s, hs, hns, h⟩
    · rw [h]
      unfold EnhShader.waveStep
      split
      · left; rfl
      · rcases max_choice acc.1
          (EnhShader.slotWave u cps asp uv s'.1 s'.2) with hmx | hmx
        · left; exact hmx
        · right
          refine ⟨s', List.mem_cons_self s' rest, ?_, hmx⟩
          next hcond => exact hcond
    · right; exact ⟨s, List.mem_cons_of_mem s' hs, hns, h⟩

theorem c5_slot_contribution :
    EnhShader.slotWave c5Uniforms 0 1 (0, 0)
      (1 / 2 + Real.log (7 / 4), 1 / 2) 0 = 2 / 5 := by
  have hL : (0 : ℝ) ≤ Real.log (7 / 4) := Real.log_nonneg (by norm_num)
  have hcuv : rippleCuv (1, 1) 0 1 (1 / 2 + Real.log (7 / 4), 1 / 2) =
      (Real.log (7 / 4), 0) := by
    unfold rippleCuv vmulv vdivv vsubs vsub vscale
    norm_num
  have hdist : glDistance (0, 0) (Real.log (7 / 4), 0) = Real.log (7 / 4) := by
    unfold glDistance
    rw [show ((0 : ℝ), (0 : ℝ)).1 - (Real.log (7 / 4), (0 : ℝ)).1 = 0 - Real.log (7 / 4) from rfl]
    rw [show ((0 : ℝ), (0 : ℝ)).2 - (Real.log (7 / 4), (0 : ℝ)).2 = 0 - 0 from rfl]
    rw [show ((0 : ℝ) - Real.log (7 / 4)) ^ 2 + ((0 : ℝ) - 0) ^ 2 =
      Real.log (7 / 4) ^ 2 by ring]
    exact Real.sqrt_sq hL
  have hexpL : Real.exp (-Real.log (7 / 4)) = 4 / 7 := by
    rw [Real.exp_neg, Real.exp_log (by norm_num)]
    norm_num
  simp only [EnhShader.slotWave, c5Uniforms]
  rw [hcuv, hdist]
  rw [show Real.log (7 / 4) - (0 : ℝ) = Real.log (7 / 4) from sub_zero _,
    max_eq_left hL]
  simp only [EnhShader.finalWaveTR, EnhShader.calculateWaveCore,
    EnhShader.timeAttenuation, EnhShader.distanceAttenuation]
  rw [show Real.log (7 / 4) - 1 * Real.log (7 / 4) = 0 by ring]
  norm_num [hexpL]

theorem c5_two_ripples_fold :
    (EnhShader.waveFold c5Uniforms 0 1 (0, 0)
      [((1 / 2 + Real.log (7 / 4), 1 / 2), 0),
       ((1 / 2 + Real.log (7 / 4), 1 / 2), 0)]).1 = 2 / 5 := by
  have hL : (0 : ℝ) ≤ Real.log (7 / 4) := Real.log_nonneg (by norm_num)
  have hns : ¬(((((1 : ℝ) / 2 + Real.log (7 / 4), (1 : ℝ) / 2),
      (0 : ℝ))).1.1 < 0 ∧
      (((((1 : ℝ) / 2 + Real.log (7 / 4), (1 : ℝ) / 2), (0 : ℝ)))).1.2 < 0) := by
    intro h
    have := h.1
    simp only at this
    linarith
  unfold EnhShader.waveFold
  simp only [List.foldl_cons, List.foldl_nil, EnhShader.waveStep,
    if_neg hns]
  simp only [c5_slot_contribution]
  norm_num

/-- Claim C5: in both variants the aggregate wave intensity upper
bounds every non-empty slot's contribution and, when nonzero, equals
one of them (the loop combines by `max`, never by sum); concretely,
two ripples whose contributions at a shared sample point are each
`0.4` yield aggregate intensity `0.4`, not `0.8`. -/
theorem c5_combination_is_max :
    (∀ (uR : ℝ × ℝ) (uT cps asp : ℝ) (uv : ℝ × ℝ)
      (slots : List ((ℝ × ℝ) × ℝ)),
      (∀ s ∈ slots, ¬(s.1.1 < 0 ∧ s.1.2 < 0) →
        BasicShader.waveAt uv (rippleCuv uR cps asp s.1) uT s.2 ≤
          BasicShader.feedFold uR uT cps asp uv slots) ∧
      (BasicShader.feedFold uR uT cps asp uv slots = 0 ∨
        ∃ s ∈ slots, ¬(s.1.1 < 0 ∧ s.1.2 < 0) ∧
          BasicShader.feedFold uR uT cps asp uv slots =
            BasicShader.waveAt uv (rippleCuv uR cps asp s.1) uT s.2)) ∧
    (∀ (u : EnhShader.Uniforms) (cps asp : ℝ) (uv : ℝ × ℝ)
      (slots : List ((ℝ × ℝ) × ℝ)),
      (∀ s ∈ slots, ¬(s.1.1 < 0 ∧ s.1.2 < 0) →
        EnhShader.slotWave u cps asp uv s.1 s.2 ≤
          (EnhShader.waveFold u cps asp uv slots).1) ∧
      ((EnhShader.waveFold u cps asp uv slots).1 = 0 ∨
        ∃ s ∈ slots, ¬(s.1.1 < 0 ∧ s.1.2 < 0) ∧
          (EnhShader.waveFold u cps asp uv slots).1 =
            EnhShader.slotWave u cps asp uv s.1 s.2)) ∧
    (EnhShader.slotWave c5Uniforms 0 1 (0, 0)
        (1 / 2 + Real.log (7 / 4), 1 / 2) 0 = 2 / 5 ∧
      (EnhShader.waveFold c5Uniforms 0 1 (0, 0)
        [((1 / 2 + Real.log (7 / 4), 1 / 2), 0),
         ((1 / 2 + Real.log (7 / 4), 1 / 2), 0)]).1 = 2 / 5 ∧
      (EnhShader.waveFold c5Uniforms 0 1 (0, 0)
        [((1 / 2 + Real.log (7 / 4), 1 / 2), 0),
         ((1 / 2 + Real.log (7 / 4), 1 / 2), 0)]).1 ≠ 2 / 5 + 2 / 5) := by
  refine ⟨fun uR uT cps asp uv slots => ⟨?_, ?_⟩,
    fun u cps asp uv slots => ⟨?_, ?_⟩, ?_, ?_, ?_⟩
  · exact fun s hs hns => feed_foldl_mem_le uR uT cps asp uv slots 0 s hs hns
  · exact feed_foldl_attained uR uT cps asp uv slots 0
  · exact fun s hs hns => wave_foldl_fst_mem_le u cps asp uv slots (0, 0) s hs hns
  · exact wave_foldl_fst_attained u cps asp uv slots (0, 0)
  · exact c5_slot_contribution
  · exact c5_two_ripples_fold
  · rw [c5_two_ripples_fold]; norm_num

/-- Witness for `c5_combination_is_max`: its bound conjuncts applied
to a one-slot registry holding a ripple at `(1, 1)`. -/
theorem c5_combination_is_max_witness :
    BasicShader.waveAt (0, 0) (rippleCuv (1, 1) 0 1 (1, 1)) 0 0 ≤
      BasicShader.feedFold (1, 1) 0 0 1 (0, 0) [((1, 1), 0)] ∧
    EnhShader.slotWave c5Uniforms 0 1 (0, 0) (1, 1) 0 ≤
      (EnhShader.waveFold c5Uniforms 0 1 (0, 0) [((1, 1), 0)]).1 := by
  constructor
  · exact (c5_combination_is_max.1 (1, 1) 0 0 1 (0, 0) [((1, 1), 0)]).1
      ((1, 1), 0) (List.mem_singleton.mpr rfl) (by norm_num)
  · exact (c5_combination_is_max.2.1 c5Uniforms 0 1 (0, 0) [((1, 1), 0)]).1
      ((1, 1), 0) (List.mem_singleton.mpr rfl) (by norm_num)

/-! ## Claim C2: behaviour after `clear()` -/

theorem feed_foldl_sentinel (uR : ℝ × ℝ) (uT cps asp : ℝ) (uv : ℝ × ℝ) :
    ∀ slots : List ((ℝ × ℝ) × ℝ), (∀ s ∈ slots, s.1 = ((-1 : ℝ), -1)) →
      ∀ acc : ℝ,
        slots.foldl (BasicShader.feedStep uR uT cps asp uv) acc = acc := by
  intro slots
  induction slots with
  | nil => intro _ acc; rfl
  | cons s rest ih =>
    intro hall acc
    simp only [List.foldl_cons]
    have hs := hall s (List.mem_cons_self s rest)
    have hstep : BasicShader.feedStep uR uT cps asp uv acc s = acc := by
      unfold BasicShader.feedStep
      rw [if_pos]
      rw [hs]
      norm_num
    rw [hstep]
    exact ih (fun s' hs' => hall s' (List.mem_cons_of_mem s hs')) acc

theorem feedFold_all_neg (uR : ℝ × ℝ) (uT cps asp : ℝ) (uv : ℝ × ℝ)
    (slots : List ((ℝ × ℝ) × ℝ))
    (h : ∀ s ∈ slots, s.1 = ((-1 : ℝ), -1)) :
    BasicShader.feedFold uR uT cps asp uv slots = 0 :=
  feed_foldl_sentinel uR uT cps asp uv slots h 0

theorem wave_foldl_sentinel (u : EnhShader.Uniforms) (cps asp : ℝ)
    (uv : ℝ × ℝ) :
    ∀ slots : List ((ℝ × ℝ) × ℝ), (∀ s ∈ slots, s.1 = ((-1 : ℝ), -1)) →
      ∀ acc : ℝ × ℝ,
        slots.foldl (EnhShader.waveStep u cps asp uv) acc = acc := by
  intro slots
  induction slots with
  | nil => intro _ acc; rfl
  | cons s rest ih =>
    intro hall acc
    simp only [List.foldl_cons]
    have hs := hall s (List.mem_cons_self s rest)
    have hstep : EnhShader.waveStep u cps asp uv acc s = acc := by
      unfold EnhShader.waveStep
      rw [if_pos]
      rw [hs]
      norm_num
    rw [hstep]
    exact ih (fun s' hs' => hall s' (List.mem_cons_of_mem s hs')) acc

theorem waveFold_all_neg (u : EnhShader.Uniforms) (cps asp : ℝ) (uv : ℝ × ℝ)
    (slots : List ((ℝ × ℝ) × ℝ))
    (h : ∀ s ∈ slots, s.1 = ((-1 : ℝ), -1)) :
    EnhShader.waveFold u cps asp uv slots = (0, 0) :=
  wave_foldl_sentinel u cps asp uv slots h (0, 0)

/-- Claim C2 (amended): after `clear()` the aggregate wave intensity is
0 at every sample in both variants, and `clear()` is idempotent in both
variants; the basic variant then emits the background (black, `bw = 0`)
at every pixel for every elapsed time.  (As stated the claim is false:
the enhanced variant's output after `clear()` is not the background
color at every pixel — see the counterexample — because the blue-noise
dither alone can push the smoothstep threshold above 0.3.) -/
theorem c2_amended_clear_quiescence :
    (∀ (st : BasicApp.State) (uR : ℝ × ℝ) (uT : ℝ) (frag : ℝ × ℝ),
      BasicShader.shade uR uT
        (fun i => ratPos ((BasicApp.clearRipples st).uClickPos i))
        (fun i => (((BasicApp.clearRipples st).uClickTimes i : ℚ) : ℝ))
        frag = 0) ∧
    (∀ (st : EnhApp.State) (u : EnhShader.Uniforms) (cps asp : ℝ)
      (uv : ℝ × ℝ),
      EnhShader.waveFold u cps asp uv
        ((List.finRange 16).map fun i =>
          (ratPos ((EnhApp.clearAllRipples st).uClickPos i),
            (((EnhApp.clearAllRipples st).uClickTimes i : ℚ) : ℝ))) =
        (0, 0)) ∧
    (∀ st : BasicApp.State,
      BasicApp.clearRipples (BasicApp.clearRipples st) =
        BasicApp.clearRipples st) ∧
    (∀ st : EnhApp.State,
      EnhApp.clearAllRipples (EnhApp.clearAllRipples st) =
        EnhApp.clearAllRipples st) := by
  refine ⟨?_, ?_, fun st => rfl, fun st => rfl⟩
  · intro st uR uT frag
    have hall : ∀ s ∈ ((List.finRange 10).map fun i =>
        (ratPos ((BasicApp.clearRipples st).uClickPos i),
          (((BasicApp.clearRipples st).uClickTimes i : ℚ) : ℝ))),
        s.1 = ((-1 : ℝ), -1) := by
      intro s hs
      simp only [List.mem_map] at hs
      obtain ⟨i, -, rfl⟩ := hs
      simp [BasicApp.clearRipples, ratPos]
    simp only [BasicShader.shade]
    rw [feedFold_all_neg uR uT _ _ _ _ hall]
    unfold glStep
    rw [if_pos]
    have hb := Bayer8_bounds (vdivs (vsub frag (vscale 0.5 uR))
      BasicShader.PIXEL_SIZE)
    norm_num
    linarith [hb.2]
  · intro st u cps asp uv
    apply waveFold_all_neg
    intro s hs
    simp only [List.mem_map] at hs
    obtain ⟨i, -, rfl⟩ := hs
    simp [EnhApp.clearAllRipples, ratPos]

theorem glSmoothstep_pos_of_mem (x : ℝ) (h1 : 0.3 < x) (h2 : x < 0.7) :
    0 < glSmoothstep 0.3 0.7 x := by
  unfold glSmoothstep glClamp
  have ht0 : (0 : ℝ) ≤ (x - 0.3) / (0.7 - 0.3) :=
    div_nonneg (by linarith) (by norm_num)
  have ht1 : (x - 0.3) / (0.7 - 0.3) < 1 := by
    rw [div_lt_one (by norm_num)]
    linarith
  rw [max_eq_left ht0, min_eq_left ht1.le]
  have htp : 0 < (x - 0.3) / (0.7 - 0.3) := div_pos (by linarith) (by norm_num)
  nlinarith [htp, ht1]

theorem blueNoise_bound :
    (0.9008 : ℝ) ≤ blueNoise (11 / 10000, 0) ∧
    blueNoise (11 / 10000, 0) ≤ 0.90085 := by
  simp only [blueNoise, glDot, vscale, glFract]
  rw [show ((0.01 * (11 / 10000) : ℝ) * 127.1 + 0.01 * 0 * 311.7)
      = 13981 / 10000000 by norm_num]
  rw [show ((0.01 * (11 / 10000) : ℝ) * 269.5 + 0.01 * 0 * 183.3)
      = 29645 / 10000000 by norm_num]
  have hA : |Real.sin (13981 / 10000000 : ℝ) -
      ((13981 / 10000000 : ℝ) - (13981 / 10000000 : ℝ) ^ 3 / 6)| ≤
      |(13981 / 10000000 : ℝ)| ^ 4 * (5 / 96) :=
    Real.sin_bound (by rw [abs_le]; constructor <;> norm_num)
  have hB : |Real.sin (29645 / 10000000 : ℝ) -
      ((29645 / 10000000 : ℝ) - (29645 / 10000000 : ℝ) ^ 3 / 6)| ≤
      |(29645 / 10000000 : ℝ)| ^ 4 * (5 / 96) :=
    Real.sin_bound (by rw [abs_le]; constructor <;> norm_num)
  rw [abs_of_nonneg (by norm_num : (0 : ℝ) ≤ 13981 / 10000000)] at hA
  rw [abs_of_nonneg (by norm_num : (0 : ℝ) ≤ 29645 / 10000000)] at hB
  obtain ⟨hA1, hA2⟩ := abs_le.mp hA
  obtain ⟨hB1, hB2⟩ := abs_le.mp hB
  have hlo : (190.9008 : ℝ) ≤
      Real.sin (13981 / 10000000 : ℝ) * 43758.5453123 +
      Real.sin (29645 / 10000000 : ℝ) * 43758.5453123 := by
    nlinarith [hA1, hB1]
  have hhi : Real.sin (13981 / 10000000 : ℝ) * 43758.5453123 +
      Real.sin (29645 / 10000000 : ℝ) * 43758.5453123 ≤ (190.90085 : ℝ) := by
    nlinarith [hA2, hB2]
  have hfloor : ⌊Real.sin (13981 / 10000000 : ℝ) * 43758.5453123 +
      Real.sin (29645 / 10000000 : ℝ) * 43758.5453123⌋ = (190 : ℤ) := by
    rw [Int.floor_eq_iff]
    constructor
    · push_cast
      linarith
    · push_cast
      linarith
  unfold Int.fract
  rw [hfloor]
  push_cast
  constructor <;> linarith

/-- Claim C2 is false as stated: evaluating the enhanced shader on a
fully cleared registry (every slot the `(-1, -1)` sentinel, as produced
by `clearAllRipples`) at the concrete pixel `(1.0011, 1)` with a 2 by 2
resolution, white foreground colors and a black static background does
not yield the background color — the blue-noise dither value at that
pixel exceeds 0.8, so the smoothstep threshold `0 + (dither - 0.5)`
passes 0.3 and a positive amount of foreground color is mixed in even
though the aggregate wave intensity is 0. -/
theorem c2_counterexample :
    EnhShader.shade c2Uniforms
      (fun i => ratPos ((EnhApp.clearAllRipples EnhApp.initial).uClickPos i))
      (fun i => (((EnhApp.clearAllRipples EnhApp.initial).uClickTimes i : ℚ) : ℝ))
      (10011 / 10000, 1) ≠ c2Uniforms.uBackgroundColor := by
  have hall : ∀ s ∈ ((List.finRange 16).map fun i =>
      (ratPos ((EnhApp.clearAllRipples EnhApp.initial).uClickPos i),
        (((EnhApp.clearAllRipples EnhApp.initial).uClickTimes i : ℚ) : ℝ))),
      s.1 = ((-1 : ℝ), -1) := by
    intro s hs
    simp only [List.mem_map] at hs
    obtain ⟨i, -, rfl⟩ := hs
    simp [EnhApp.clearAllRipples, ratPos]
  have hcoord : vdivs (vsub ((10011 / 10000 : ℝ), (1 : ℝ))
      (vscale 0.5 (c2Uniforms.uResolution))) c2Uniforms.uPixelSize =
      ((11 / 10000 : ℝ), (0 : ℝ)) := by
    unfold vdivs vsub vscale c2Uniforms
    norm_num
  have hdith : EnhShader.ditherSelect (((0 : ℝ), (0 : ℝ))).2
      ((11 / 10000 : ℝ), (0 : ℝ)) = blueNoise (11 / 10000, 0) := by
    unfold EnhShader.ditherSelect
    rw [if_neg (by norm_num), if_neg (by norm_num), if_neg (by norm_num)]
  have hbg : ∀ uv : ℝ × ℝ,
      EnhShader.getAnimatedBackground c2Uniforms uv =
        ((0 : ℝ), (0 : ℝ), (0 : ℝ)) := fun _ => rfl
  have hbn := blueNoise_bound
  have hsmooth : 0 < glSmoothstep 0.3 0.7
      ((((0 : ℝ), (0 : ℝ))).1 + (blueNoise (11 / 10000, 0) - 0.5)) :=
    glSmoothstep_pos_of_mem _ (by simp; linarith [hbn.1])
      (by simp; linarith [hbn.2])
  simp only [EnhShader.shade]
  rw [waveFold_all_neg _ _ _ _ _ hall]
  rw [hcoord, hdith, hbg]
  rw [show c2Uniforms.uColor1 = ((1 : ℝ), (1 : ℝ), (1 : ℝ)) from rfl,
    show c2Uniforms.uColor2 = ((1 : ℝ), (1 : ℝ), (1 : ℝ)) from rfl,
    show c2Uniforms.uBloomStrength = (0 : ℝ) from rfl,
    show c2Uniforms.uBackgroundColor = ((0 : ℝ), (0 : ℝ), (0 : ℝ)) from rfl]
  split_ifs with hcase
  · refine ne_of_apply_ne Prod.fst ?_
    simp only [v3add, v3mix, v3scale, glMix]
    intro h1
    nlinarith [hsmooth, h1]
  · refine ne_of_apply_ne Prod.fst ?_
    simp only [v3mix, glMix]
    intro h1
    nlinarith [hsmooth, h1]

/-! ## Claim C3: what `clear()` resets -/

/-- Claim C3 is false as stated: in the basic variant, after one
insertion (`clickIndex = 1`) a `clearRipples()` call leaves the write
cursor at 1, not 0 — the basic `clearRipples` only resets positions
and times. -/
theorem c3_counterexample :
    (BasicApp.clearRipples (BasicApp.addRipple BasicApp.initial 5 5)).clickIndex
      ≠ 0 := by decide

/-- Claim C3 (amended): in both variants `clear()` sets every slot's
position to the `(-1, -1)` sentinel and every spawn time to 0 and never
fails (it is a total function); the enhanced variant also resets
`clickIndex` to 0 and `activeRipples` to 0, but the basic variant
leaves `clickIndex` unchanged. -/
theorem c3_amended_clear_resets (stB : BasicApp.State) (stE : EnhApp.State)
    (i : Fin 10) (j : Fin 16) :
    (BasicApp.clearRipples stB).uClickPos i = (-1, -1) ∧
    (BasicApp.clearRipples stB).uClickTimes i = 0 ∧
    (BasicApp.clearRipples stB).clickIndex = stB.clickIndex ∧
    (BasicApp.clearRipples stB).uTime = stB.uTime ∧
    (EnhApp.clearAllRipples stE).uClickPos j = (-1, -1) ∧
    (EnhApp.clearAllRipples stE).uClickTimes j = 0 ∧
    (EnhApp.clearAllRipples stE).clickIndex = 0 ∧
    (EnhApp.clearAllRipples stE).activeRipples = 0 :=
  ⟨rfl, rfl, rfl, rfl, rfl, rfl, rfl, rfl⟩

/-! ## Claim C9: insertion is unvalidated; non-sentinel records are
active -/

/-- Claim C9: insertion stores the requested position verbatim for
every coordinate pair — no validation against any resolution bounds,
in both variants — and when the position is not an empty-sentinel
position (`x < 0 && y < 0`, the form both shaders test), the
evaluator's empty-slot check does not skip the record. -/
theorem c9_insert_unvalidated_and_active (stB : BasicApp.State)
    (stE : EnhApp.State) (x y : ℚ) (h : ¬(x < 0 ∧ y < 0)) :
    (BasicApp.addRipple stB x y).uClickPos stB.clickIndex = (x, y) ∧
    (EnhApp.addRipple stE x y).uClickPos stE.clickIndex = (x, y) ∧
    ¬ sentinelQ (x, y) ∧
    ¬((ratPos (x, y)).1 < 0 ∧ (ratPos (x, y)).2 < 0) := by
  refine ⟨?_, ?_, h, ?_⟩
  · unfold BasicApp.addRipple
    exact Function.update_same _ _ _
  · unfold EnhApp.addRipple
    split
    · simp only [Function.update_same]
    · simp only [Function.update_same]
  · intro hc
    have h1 : ((x : ℝ)) < 0 := hc.1
    have h2 : ((y : ℝ)) < 0 := hc.2
    exact h ⟨by exact_mod_cast h1, by exact_mod_cast h2⟩

/-- Witness for `c9_insert_unvalidated_and_active`: inserting at
`(-5, 3)` — a negative, far out-of-frame coordinate — succeeds and is
treated as an active record. -/
theorem c9_insert_unvalidated_and_active_witness :
    (BasicApp.addRipple BasicApp.initial (-5) 3).uClickPos
      BasicApp.initial.clickIndex = (-5, 3) ∧
    (EnhApp.addRipple EnhApp.initial (-5) 3).uClickPos
      EnhApp.initial.clickIndex = (-5, 3) ∧
    ¬ sentinelQ ((-5 : ℚ), (3 : ℚ)) ∧
    ¬((ratPos ((-5 : ℚ), (3 : ℚ))).1 < 0 ∧
      (ratPos ((-5 : ℚ), (3 : ℚ))).2 < 0) :=
  c9_insert_unvalidated_and_active BasicApp.initial EnhApp.initial (-5) 3
    (by decide)

/-! ## Claim C10: frame effect of an insertion -/

/-- Claim C10: an insertion writes the new record at the current write
cursor and advances the cursor, but leaves every other slot's position
and spawn time, the clock and (in the enhanced variant) the whole style
parameter record untouched, in both variants. -/
theorem c10_insert_frame_effect (stB : BasicApp.State) (stE : EnhApp.State)
    (x y : ℚ) (i : Fin 10) (j : Fin 16)
    (hi : i ≠ stB.clickIndex) (hj : j ≠ stE.clickIndex) :
    (BasicApp.addRipple stB x y).uClickPos i = stB.uClickPos i ∧
    (BasicApp.addRipple stB x y).uClickTimes i = stB.uClickTimes i ∧
    (BasicApp.addRipple stB x y).uTime = stB.uTime ∧
    (BasicApp.addRipple stB x y).uClickPos stB.clickIndex = (x, y) ∧
    (BasicApp.addRipple stB x y).uClickTimes stB.clickIndex = stB.uTime ∧
    (BasicApp.addRipple stB x y).clickIndex = stB.clickIndex + 1 ∧
    (EnhApp.addRipple stE x y).uClickPos j = stE.uClickPos j ∧
    (EnhApp.addRipple stE x y).uClickTimes j = stE.uClickTimes j ∧
    (EnhApp.addRipple stE x y).uTime = stE.uTime ∧
    (EnhApp.addRipple stE x y).params = stE.params ∧
    (EnhApp.addRipple stE x y).uClickPos stE.clickIndex = (x, y) ∧
    (EnhApp.addRipple stE x y).clickIndex = stE.clickIndex + 1 := by
  refine ⟨?_, ?_, rfl, ?_, ?_, rfl, ?_, ?_, ?_, ?_, ?_, ?_⟩
  · exact Function.update_noteq hi _ _
  · exact Function.update_noteq hi _ _
  · exact Function.update_same _ _ _
  · exact Function.update_same _ _ _
  · unfold EnhApp.addRipple
    split
    · simp only [Function.update_noteq hj]
    · simp only [Function.update_noteq hj]
  · unfold EnhApp.addRipple
    split
    · simp only [Function.update_noteq hj]
    · simp only [Function.update_noteq hj]
  · unfold EnhApp.addRipple
    split <;> rfl
  · unfold EnhApp.addRipple
    split <;> rfl
  · unfold EnhApp.addRipple
    split
    · simp only [Function.update_same]
    · simp only [Function.update_same]
  · unfold EnhApp.addRipple
    split <;> rfl

/-- Witness for `c10_insert_frame_effect` at the construction-time
states, inserting `(3, 4)` and checking slot 1. -/
theorem c10_insert_frame_effect_witness :
    (BasicApp.addRipple BasicApp.initial 3 4).uClickPos 1 =
      BasicApp.initial.uClickPos 1 ∧
    (BasicApp.addRipple BasicApp.initial 3 4).uClickTimes 1 =
      BasicApp.initial.uClickTimes 1 ∧
    (BasicApp.addRipple BasicApp.initial 3 4).uTime =
      BasicApp.initial.uTime ∧
    (BasicApp.addRipple BasicApp.initial 3 4).uClickPos
      BasicApp.initial.clickIndex = (3, 4) ∧
    (BasicApp.addRipple BasicApp.initial 3 4).uClickTimes
      BasicApp.initial.clickIndex = BasicApp.initial.uTime ∧
    (BasicApp.addRipple BasicApp.initial 3 4).clickIndex =
      BasicApp.initial.clickIndex + 1 ∧
    (EnhApp.addRipple EnhApp.initial 3 4).uClickPos 1 =
      EnhApp.initial.uClickPos 1 ∧
    (EnhApp.addRipple EnhApp.initial 3 4).uClickTimes 1 =
      EnhApp.initial.uClickTimes 1 ∧
    (EnhApp.addRipple EnhApp.initial 3 4).uTime = EnhApp.initial.uTime ∧
    (EnhApp.addRipple EnhApp.initial 3 4).params = EnhApp.initial.params ∧
    (EnhApp.addRipple EnhApp.initial 3 4).uClickPos
      EnhApp.initial.clickIndex = (3, 4) ∧
    (EnhApp.addRipple EnhApp.initial 3 4).clickIndex =
      EnhApp.initial.clickIndex + 1 :=
  c10_insert_frame_effect BasicApp.initial EnhApp.initial 3 4 1 1
    (by decide) (by decide)

/-! ## Claim C1: FIFO slot reuse over capacity + 1 insertions -/

/-- Claim C1 is false as stated: inserting the 11 distinguishable
records `(1,1), (2,2), ..., (11,11)` into the empty basic registry
leaves slot 0 holding insertion 11's record `(11, 11)`, not insertion
2's record `(2, 2)` — insertion 2 lives in slot 1. -/
theorem c1_counterexample :
    (([((1 : ℚ), (1 : ℚ)), (2, 2), (3, 3), (4, 4), (5, 5), (6, 6), (7, 7),
       (8, 8), (9, 9), (10, 10), (11, 11)]).foldl
      (fun s q => BasicApp.addRipple s q.1 q.2) BasicApp.initial).uClickPos 0
      ≠ ((2 : ℚ), (2 : ℚ)) := by decide

/-- Claim C1 (amended): starting from the empty registry (cursor 0),
inserting capacity + 1 = 11 records `p 1, ..., p 11` evicts insertion
1's record (when its position differs from the later ones, no slot
holds it any more), insertion 2's record occupies slot 1, and slot 0
holds insertion 11's record. -/
theorem c1_amended_fifo_eviction (p : ℕ → ℚ × ℚ)
    (hdist : ∀ k, k < 12 → 2 ≤ k → p k ≠ p 1) :
    (∀ j : Fin 10,
      (((List.range 11).map fun k => p (k + 1)).foldl
        (fun s q => BasicApp.addRipple s q.1 q.2)
        BasicApp.initial).uClickPos j ≠ p 1) ∧
    (((List.range 11).map fun k => p (k + 1)).foldl
      (fun s q => BasicApp.addRipple s q.1 q.2)
      BasicApp.initial).uClickPos 1 = p 2 ∧
    (((List.range 11).map fun k => p (k + 1)).foldl
      (fun s q => BasicApp.addRipple s q.1 q.2)
      BasicApp.initial).uClickPos 0 = p 11 := by
  refine ⟨?_, rfl, rfl⟩
  intro j
  fin_cases j
  · exact hdist 11 (by norm_num) (by norm_num)
  · exact hdist 2 (by norm_num) (by norm_num)
  · exact hdist 3 (by norm_num) (by norm_num)
  · exact hdist 4 (by norm_num) (by norm_num)
  · exact hdist 5 (by norm_num) (by norm_num)
  · exact hdist 6 (by norm_num) (by norm_num)
  · exact hdist 7 (by norm_num) (by norm_num)
  · exact hdist 8 (by norm_num) (by norm_num)
  · exact hdist 9 (by norm_num) (by norm_num)
  · exact hdist 10 (by norm_num) (by norm_num)

/-- Witness for `c1_amended_fifo_eviction` with the records
`p k = (k, k)`. -/
theorem c1_amended_fifo_eviction_witness :
    (∀ j : Fin 10,
      (((List.range 11).map fun k =>
          (((k + 1 : ℕ) : ℚ), ((k + 1 : ℕ) : ℚ))).foldl
        (fun s q => BasicApp.addRipple s q.1 q.2)
        BasicApp.initial).uClickPos j ≠ (((1 : ℕ) : ℚ), ((1 : ℕ) : ℚ))) ∧
    (((List.range 11).map fun k =>
        (((k + 1 : ℕ) : ℚ), ((k + 1 : ℕ) : ℚ))).foldl
      (fun s q => BasicApp.addRipple s q.1 q.2)
      BasicApp.initial).uClickPos 1 = (((2 : ℕ) : ℚ), ((2 : ℕ) : ℚ)) ∧
    (((List.range 11).map fun k =>
        (((k + 1 : ℕ) : ℚ), ((k + 1 : ℕ) : ℚ))).foldl
      (fun s q => BasicApp.addRipple s q.1 q.2)
      BasicApp.initial).uClickPos 0 = (((11 : ℕ) : ℚ), ((11 : ℕ) : ℚ)) :=
  c1_amended_fifo_eviction (fun k => ((k : ℚ), (k : ℚ))) (by decide)

/-! ## Claim C4: the active-ripple counter -/

/-- Claim C4 is false as stated: with `maxRipples = 1` (which the
claim's side condition `maxRipples ≤ capacity` permits), inserting two
ripples leaves `activeRipples = 1` while two slots are non-sentinel —
the forced-overwrite branch cleared a slot that was already empty and
decremented the counter anyway. -/
theorem c4_counterexample :
    (EnhApp.addRipple (EnhApp.addRipple EnhApp.lowCapStart 1 1) 2 2).activeRipples
      ≠ ((EnhApp.activeSlotCount
        (EnhApp.addRipple (EnhApp.addRipple EnhApp.lowCapStart 1 1) 2 2) : ℕ) : ℤ)
    := by decide

theorem activeSlotCount_of_inv (st : EnhApp.State) (a : ℕ) (ha : a ≤ 16)
    (hwin : ∀ k : Fin 16,
      sentinelQ (st.uClickPos (st.clickIndex + k)) ↔ (k : ℕ) < 16 - a) :
    EnhApp.activeSlotCount st = a := by
  unfold EnhApp.activeSlotCount
  have h1 : (Finset.univ.filter fun k : Fin 16 => ¬((k : ℕ) < 16 - a)).card =
      (Finset.univ.filter fun j : Fin 16 => ¬ sentinelQ (st.uClickPos j)).card := by
    refine Finset.card_equiv (Equiv.addLeft st.clickIndex) ?_
    intro k
    simp only [Finset.mem_filter, Finset.mem_univ, true_and, Equiv.coe_addLeft]
    exact not_congr (hwin k).symm
  rw [← h1]
  interval_cases a <;> decide

theorem inv_initial : EnhApp.Inv EnhApp.initial := by
  refine ⟨0, by norm_num, rfl, fun k => ?_⟩
  constructor
  · intro _; omega
  · intro _; exact (by decide : sentinelQ ((-1 : ℚ), (-1 : ℚ)))

theorem inv_clearAllRipples (st : EnhApp.State) :
    EnhApp.Inv (EnhApp.clearAllRipples st) := by
  refine ⟨0, by norm_num, rfl, fun k => ?_⟩
  constructor
  · intro _; omega
  · intro _; exact (by decide : sentinelQ ((-1 : ℚ), (-1 : ℚ)))

theorem addRipple_params (st : EnhApp.State) (x y : ℚ) :
    (EnhApp.addRipple st x y).params = st.params := by
  unfold EnhApp.addRipple
  split <;> rfl

theorem inv_addRipple (st : EnhApp.State) (x y : ℚ)
    (hmax : st.params.maxRipples = 16) (hxy : ¬(x < 0 ∧ y < 0))
    (hI : EnhApp.Inv st) : EnhApp.Inv (EnhApp.addRipple st x y) := by
  obtain ⟨a, ha16, hact, hwin⟩ := hI
  have hone : ((1 : Fin 16) : ℕ) = 1 := rfl
  by_cases hfull : (16 : ℤ) ≤ st.activeRipples
  · have hstep : EnhApp.addRipple st x y =
        { st with
          uClickPos := Function.update st.uClickPos st.clickIndex (x, y)
          uClickTimes := Function.update st.uClickTimes st.clickIndex st.uTime
          clickIndex := st.clickIndex + 1
          activeRipples := st.activeRipples - 1 + 1 } := by
      unfold EnhApp.addRipple
      rw [if_pos (by rw [hmax]; exact hfull)]
      simp only [Function.update_idem]
    have ha : a = 16 := by
      rw [hact] at hfull
      exact_mod_cast le_antisymm ha16 (by exact_mod_cast hfull)
    subst ha
    rw [hstep]
    refine ⟨16, le_refl 16, by simp [hact], fun k => ?_⟩
    simp only []
    have hassoc : st.clickIndex + 1 + k = st.clickIndex + (1 + k) :=
      add_assoc _ _ _
    rw [hassoc]
    by_cases hk : (1 : Fin 16) + k = 0
    · rw [hk, add_zero, Function.update_same]
      constructor
      · intro hs; exact absurd hs hxy
      · intro h; omega
    · have hne : st.clickIndex + (1 + k) ≠ st.clickIndex := by
        intro h
        apply hk
        have h' : st.clickIndex + (1 + k) = st.clickIndex + 0 := by
          rw [add_zero]; exact h
        exact add_left_cancel h'
      rw [Function.update_noteq hne, hwin (1 + k)]
      constructor
      · intro h; omega
      · intro h; omega
  · have hstep : EnhApp.addRipple st x y =
        { st with
          uClickPos := Function.update st.uClickPos st.clickIndex (x, y)
          uClickTimes := Function.update st.uClickTimes st.clickIndex st.uTime
          clickIndex := st.clickIndex + 1
          activeRipples := st.activeRipples + 1 } := by
      unfold EnhApp.addRipple
      rw [if_neg (by rw [hmax]; exact fun h => hfull h)]
    have halt : a < 16 := by
      rcases Nat.lt_or_ge a 16 with h | h
      · exact h
      · exfalso; apply hfull; rw [hact]; exact_mod_cast h
    rw [hstep]
    refine ⟨a + 1, by omega, by rw [hact]; push_cast; ring, fun k => ?_⟩
    simp only []
    have hassoc : st.clickIndex + 1 + k = st.clickIndex + (1 + k) :=
      add_assoc _ _ _
    rw [hassoc]
    by_cases hk : (1 : Fin 16) + k = 0
    · have hk15 : (k : ℕ) = 15 := by
        have hv := congrArg Fin.val hk
        rw [Fin.val_add, hone] at hv
        have hlt : (k : ℕ) < 16 := k.isLt
        simp only [Fin.val_zero] at hv
        omega
      rw [hk, add_zero, Function.update_same]
      constructor
      · intro hs; exact absurd hs hxy
      · intro h; omega
    · have hklt : (k : ℕ) < 15 := by
        have hlt : (k : ℕ) < 16 := k.isLt
        rcases Nat.lt_or_ge (k : ℕ) 15 with h | h
        · exact h
        · exfalso
          apply hk
          apply Fin.ext
          rw [Fin.val_add, hone]
          have hk15 : (k : ℕ) = 15 := by omega
          rw [hk15]
          rfl
      have hne : st.clickIndex + (1 + k) ≠ st.clickIndex := by
        intro h
        apply hk
        have h' : st.clickIndex + (1 + k) = st.clickIndex + 0 := by
          rw [add_zero]; exact h
        exact add_left_cancel h'
      rw [Function.update_noteq hne, hwin (1 + k)]
      have hv : ((1 + k : Fin 16) : ℕ) = 1 + (k : ℕ) := by
        rw [Fin.val_add, hone]
        omega
      rw [hv]
      constructor
      · intro h; omega
      · intro h; omega

/-- Claim C4 (amended): with `maxRipples` equal to the capacity 16 —
the only value the application ever uses, since no control mutates it —
after every sequence of insertions (of non-sentinel positions), clears
and clock ticks, `activeRipples` equals the number of non-sentinel
slots and lies in `[0, 16]`. -/
theorem c4_amended_active_count (ops : List EnhApp.Op)
    (hok : ∀ op ∈ ops, EnhApp.opOK op) :
    ((EnhApp.activeSlotCount (EnhApp.run ops) : ℕ) : ℤ) =
      (EnhApp.run ops).activeRipples ∧
    0 ≤ (EnhApp.run ops).activeRipples ∧
    (EnhApp.run ops).activeRipples ≤ 16 := by
  have key : ∀ (l : List EnhApp.Op) (st : EnhApp.State),
      st.params.maxRipples = 16 → EnhApp.Inv st →
      (∀ op ∈ l, EnhApp.opOK op) →
      EnhApp.Inv (l.foldl EnhApp.step st) ∧
        (l.foldl EnhApp.step st).params.maxRipples = 16 := by
    intro l
    induction l with
    | nil => exact fun st hm hI _ => ⟨hI, hm⟩
    | cons op rest ih =>
      intro st hm hI hok'
      simp only [List.foldl_cons]
      have hstep : EnhApp.Inv (EnhApp.step st op) ∧
          (EnhApp.step st op).params.maxRipples = 16 := by
        cases op with
        | add x y =>
          refine ⟨inv_addRipple st x y hm
            (hok' _ (List.mem_cons_self _ _)) hI, ?_⟩
          rw [show EnhApp.step st (EnhApp.Op.add x y) =
            EnhApp.addRipple st x y from rfl, addRipple_params]
          exact hm
        | clearAll => exact ⟨inv_clearAllRipples st, hm⟩
        | tick t => exact ⟨hI, hm⟩
      exact ih _ hstep.2 hstep.1
        (fun op' h' => hok' op' (List.mem_cons_of_mem _ h'))
  obtain ⟨⟨a, ha, hact, hwin⟩, -⟩ := key ops EnhApp.initial rfl inv_initial hok
  have hcount : EnhApp.activeSlotCount (EnhApp.run ops) = a :=
    activeSlotCount_of_inv (EnhApp.run ops) a ha hwin
  refine ⟨?_, ?_, ?_⟩
  · rw [hcount]
    exact hact.symm
  · exact le_of_le_of_eq (Int.natCast_nonneg a) hact.symm
  · exact le_of_eq_of_le hact (by exact_mod_cast ha)

/-- Witness for `c4_amended_active_count` on the operation sequence
insert, tick, insert, clear, insert. -/
theorem c4_amended_active_count_witness :
    ((EnhApp.activeSlotCount (EnhApp.run
      [EnhApp.Op.add 1 1, EnhApp.Op.tick 2, EnhApp.Op.add 3 3,
       EnhApp.Op.clearAll, EnhApp.Op.add 5 5]) : ℕ) : ℤ) =
      (EnhApp.run
      [EnhApp.Op.add 1 1, EnhApp.Op.tick 2, EnhApp.Op.add 3 3,
       EnhApp.Op.clearAll, EnhApp.Op.add 5 5]).activeRipples ∧
    0 ≤ (EnhApp.run
      [EnhApp.Op.add 1 1, EnhApp.Op.tick 2, EnhApp.Op.add 3 3,
       EnhApp.Op.clearAll, EnhApp.Op.add 5 5]).activeRipples ∧
    (EnhApp.run
      [EnhApp.Op.add 1 1, EnhApp.Op.tick 2, EnhApp.Op.add 3 3,
       EnhApp.Op.clearAll, EnhApp.Op.add 5 5]).activeRipples ≤ 16 :=
  c4_amended_active_count
    [EnhApp.Op.add 1 1, EnhApp.Op.tick 2, EnhApp.Op.add 3 3,
     EnhApp.Op.clearAll, EnhApp.Op.add 5 5] (by decide)

end Ripples
